import Mathlib

/-!
Verification of the slashing-protection subsystem and validator-duty helpers
of this validator-client repository.

The slashing-protection database implementation itself is not among the
provided source files; only its integration test
(`validator_client/slashing_protection/tests/export_minimal.rs`) is.  The
definitions in the `SlashingModel` section are therefore modelled from the
specification (sections 3, 4.1-4.5 of the spec), using the type and function
names that the test file exercises.  The `ValidatorDuty` section is a direct
translation of `validator_client/src/validator_duty.rs`.

Conventions: public keys, slots, epochs and signing roots (`Hash256`) are
modelled as `Nat`; `Option` models Rust's `Option`; fallible operations
return `Except`.
-/

namespace SlashingModel

/-- Modelled from the spec (section 7): the slashing-rule denial conditions. -/
inductive SlashingError
  | DoubleProposal
  | DecreasingSlot
  | DoubleVote
  | SurroundingVote
  | DecreasingTarget
  | InvalidRange
deriving DecidableEq, Repr

/-- Modelled from the spec (section 4.2): the evaluator's decision. -/
inductive Verdict
  | allow
  | deny (e : SlashingError)
deriving DecidableEq, Repr

/-- Modelled from the spec (sections 4.1, 7): errors of the protection guard. -/
inductive CheckError
  | KeyNotRegistered
  | Slashing (e : SlashingError)
deriving DecidableEq, Repr

/-- Modelled from the spec (section 7): errors of interchange import. -/
inductive ImportError
  | GenesisMismatch
  | UnsupportedVersion
  | MalformedDocument
deriving DecidableEq, Repr

/-- Modelled from the spec (section 3): `(slot, signing_root)` of the
highest-slot block ever signed by a key. -/
structure BlockSigningRecord where
  slot : Nat
  signing_root : Nat
deriving DecidableEq, Repr

/-- Modelled from the spec (section 3): one historical
`(source_epoch, target_epoch, signing_root)` attestation tuple. -/
structure AttestationSigningRecord where
  source_epoch : Nat
  target_epoch : Nat
  signing_root : Nat
deriving DecidableEq, Repr

/-- Modelled from the spec (sections 3, 4.1): the per-key content of the
signing record store — the block record, the append-only attestation history,
and the three monotonic bounds that minimal interchange import/export works
with (a bound is `none` while the corresponding category was never signed
nor imported). -/
structure ValidatorRecord where
  block : Option BlockSigningRecord
  attestations : List AttestationSigningRecord
  block_slot_bound : Option Nat
  att_source_bound : Option Nat
  att_target_bound : Option Nat
deriving DecidableEq, Repr

/-- The record of a key that never signed nor imported anything. -/
def ValidatorRecord.empty : ValidatorRecord :=
  { block := none
    attestations := []
    block_slot_bound := none
    att_source_bound := none
    att_target_bound := none }

/-- Modelled from the spec (sections 3, 4.1): the keyed signing record store.
`registered` is the list of registered public keys; `records` gives each
key's stored data (an unregistered key's cell is simply never consulted by
the guard, which fails with `KeyNotRegistered` first). -/
structure SlashingDatabase where
  registered : List Nat
  records : Nat → ValidatorRecord

/-- A freshly created, empty database. -/
def SlashingDatabase.empty : SlashingDatabase :=
  { registered := [], records := fun _ => ValidatorRecord.empty }

/-- Point update of one key's record. -/
def SlashingDatabase.update (db : SlashingDatabase) (k : Nat)
    (f : ValidatorRecord → ValidatorRecord) : SlashingDatabase :=
  { registered := db.registered
    records := fun k2 => if k2 = k then f (db.records k2) else db.records k2 }

/-- Modelled from the spec (section 4.1): idempotent registration of one key. -/
def SlashingDatabase.register_one (db : SlashingDatabase) (k : Nat) :
    SlashingDatabase :=
  if k ∈ db.registered then db
  else { registered := db.registered ++ [k], records := db.records }

/-- Modelled from the spec (section 4.1): `register_validators` registers a
batch of keys, idempotently. -/
def SlashingDatabase.register_validators (db : SlashingDatabase)
    (ks : List Nat) : SlashingDatabase :=
  ks.foldl SlashingDatabase.register_one db

/-- Modelled from the spec (section 4.2): pure block-proposal evaluator.
ALLOW with no prior record; ALLOW on exact `(slot, root)` replay;
DENY(DoubleProposal) on same slot with a different root;
DENY(DecreasingSlot) on a smaller slot; ALLOW when the slot increases. -/
def evaluate_block (history : Option BlockSigningRecord)
    (candidate_slot candidate_root : Nat) : Verdict :=
  match history with
  | none => .allow
  | some h =>
    if candidate_slot = h.slot then
      if candidate_root = h.signing_root then .allow
      else .deny .DoubleProposal
    else if candidate_slot < h.slot then .deny .DecreasingSlot
    else .allow

/-- Modelled from the spec (section 4.2): pure attestation evaluator.
Rule order: InvalidRange when `source > target` (always, regardless of
history); DoubleVote when some prior vote has the same target epoch and a
different root; SurroundingVote when some prior vote strictly encloses the
candidate or is strictly enclosed by it; DecreasingTarget when some prior
vote has a strictly greater target epoch, unless the candidate is an exact
repeat of a stored `(source, target, root)` triple (idempotent replay);
otherwise ALLOW.  (Section 4.2 lists DecreasingTarget second, but section
8 requires the candidate (2,3) against the accepted vote (1,4) to be denied
as SurroundingVote, so the surround rules must be consulted before the
decreasing-target rule; the spec's section 8 examples fix this order.) -/
def evaluate_attestation (history : List AttestationSigningRecord)
    (candidate_source candidate_target candidate_root : Nat) : Verdict :=
  if candidate_target < candidate_source then .deny .InvalidRange
  else if history.any fun p =>
      p.target_epoch == candidate_target && p.signing_root != candidate_root then
    .deny .DoubleVote
  else if history.any fun p =>
      (decide (p.source_epoch < candidate_source) &&
        decide (candidate_target < p.target_epoch)) ||
      (decide (candidate_source < p.source_epoch) &&
        decide (p.target_epoch < candidate_target)) then
    .deny .SurroundingVote
  else if (history.any fun p => decide (candidate_target < p.target_epoch)) &&
      !history.contains
        ⟨candidate_source, candidate_target, candidate_root⟩ then
    .deny .DecreasingTarget
  else .allow

/-- Maximum of an optional bound and a new value (used when committing an
accepted signing action: an absent bound is treated as unset, not as zero). -/
def optMaxN (o : Option Nat) (n : Nat) : Nat :=
  match o with
  | none => n
  | some m => max m n

/-- Modelled from the spec (section 4.3): `check_and_insert_block` under the
name the test file uses.  One atomic step: fail `KeyNotRegistered` for an
unregistered key; run the evaluator against the stored block record; on
DENY abort with the slashing error; on ALLOW, an exact replay of the stored
record commits nothing, and otherwise the candidate slot must exceed the
stored block-slot bound (which a minimal import may have raised above the
recorded block), after which the new record and bound are committed. -/
def SlashingDatabase.check_and_insert_block_signing_root
    (db : SlashingDatabase) (k slot root : Nat) :
    Except CheckError SlashingDatabase :=
  if k ∈ db.registered then
    match evaluate_block (db.records k).block slot root with
    | .deny e => .error (.Slashing e)
    | .allow =>
      if (db.records k).block = some ⟨slot, root⟩ then .ok db
      else
        match (db.records k).block_slot_bound with
        | some b =>
          if slot ≤ b then .error (.Slashing .DecreasingSlot)
          else .ok (db.update k fun r2 =>
            { r2 with block := some ⟨slot, root⟩
                      block_slot_bound := some (optMaxN r2.block_slot_bound slot) })
        | none => .ok (db.update k fun r2 =>
            { r2 with block := some ⟨slot, root⟩
                      block_slot_bound := some (optMaxN r2.block_slot_bound slot) })
  else .error .KeyNotRegistered

/-- Modelled from the spec (section 4.3): `check_and_insert_attestation`
under the name the test file uses.  One atomic step: fail `KeyNotRegistered`
for an unregistered key; run the evaluator against the stored attestation
history; on DENY abort with the slashing error; on ALLOW, an exact replay
of a stored triple commits nothing, and otherwise the candidate target must
exceed the stored target bound (which a minimal import may have raised above
every recorded vote), after which the vote is appended to the history and
the source/target bounds are raised. -/
def SlashingDatabase.check_and_insert_attestation_signing_root
    (db : SlashingDatabase) (k source target root : Nat) :
    Except CheckError SlashingDatabase :=
  if k ∈ db.registered then
    match evaluate_attestation (db.records k).attestations source target root with
    | .deny e => .error (.Slashing e)
    | .allow =>
      if (db.records k).attestations.contains ⟨source, target, root⟩ then .ok db
      else
        match (db.records k).att_target_bound with
        | some b =>
          if target ≤ b then .error (.Slashing .DecreasingTarget)
          else .ok (db.update k fun r2 =>
            { r2 with
                attestations := r2.attestations ++ [⟨source, target, root⟩]
                att_source_bound := some (optMaxN r2.att_source_bound source)
                att_target_bound := some (optMaxN r2.att_target_bound target) })
        | none => .ok (db.update k fun r2 =>
            { r2 with
                attestations := r2.attestations ++ [⟨source, target, root⟩]
                att_source_bound := some (optMaxN r2.att_source_bound source)
                att_target_bound := some (optMaxN r2.att_target_bound target) })
  else .error .KeyNotRegistered

/-- Modelled from the spec (sections 3, 6): kind of an interchange document. -/
inductive InterchangeFormat
  | Minimal
  | Complete
deriving DecidableEq, Repr

/-- Modelled from the spec (section 6): interchange document metadata.  The
format version is modelled as `Nat`. -/
structure InterchangeMetadata where
  interchange_format : InterchangeFormat
  interchange_format_version : Nat
  genesis_validators_root : Nat
deriving DecidableEq, Repr

/-- Modelled from the spec (section 3): one key's entry in a Minimal
interchange document — the three optional monotonic bounds. -/
structure MinimalInterchangeData where
  pubkey : Nat
  last_signed_block_slot : Option Nat
  last_signed_attestation_source_epoch : Option Nat
  last_signed_attestation_target_epoch : Option Nat
deriving DecidableEq, Repr

/-- Modelled from the spec (sections 3, 6): an interchange document.  Only
the Minimal data variant is modelled; the claims under verification concern
Minimal documents only. -/
structure Interchange where
  metadata : InterchangeMetadata
  data : List MinimalInterchangeData
deriving DecidableEq, Repr

/-- The highest interchange format version this implementation supports. -/
def SUPPORTED_INTERCHANGE_FORMAT_VERSION : Nat := 2

/-- Modelled from the spec (section 4.5): join of two optional bounds —
`max` of the present values, with an absent value treated as unset rather
than zero. -/
def optMax : Option Nat → Option Nat → Option Nat
  | none, b => b
  | some a, none => some a
  | some a, some b => some (max a b)

/-- Modelled from the spec (section 4.5): merge one Minimal interchange
entry into the store — register the key if unseen, then join each of the
three bounds with the imported one. -/
def SlashingDatabase.import_entry (db : SlashingDatabase)
    (e : MinimalInterchangeData) : SlashingDatabase :=
  (db.register_one e.pubkey).update e.pubkey fun r =>
    { r with
        block_slot_bound := optMax r.block_slot_bound e.last_signed_block_slot
        att_source_bound :=
          optMax r.att_source_bound e.last_signed_attestation_source_epoch
        att_target_bound :=
          optMax r.att_target_bound e.last_signed_attestation_target_epoch }

/-- Modelled from the spec (section 4.4): `import_interchange_info` fails
with `GenesisMismatch` when the document's genesis validators root differs
from the local one, with `UnsupportedVersion` when the document's format
version is newer than supported, and otherwise merges every entry.  The
result is the whole new database (all-or-nothing: on error the caller keeps
the old state). -/
def SlashingDatabase.import_interchange_info (db : SlashingDatabase)
    (doc : Interchange) (local_root : Nat) :
    Except ImportError SlashingDatabase :=
  if doc.metadata.genesis_validators_root ≠ local_root then
    .error .GenesisMismatch
  else if SUPPORTED_INTERCHANGE_FORMAT_VERSION <
      doc.metadata.interchange_format_version then
    .error .UnsupportedVersion
  else .ok (doc.data.foldl SlashingDatabase.import_entry db)

/-- The database an import leaves behind: the merged store on success, the
unchanged store on failure (imports are all-or-nothing). -/
def SlashingDatabase.import_apply (db : SlashingDatabase)
    (doc : Interchange) (local_root : Nat) : SlashingDatabase :=
  match db.import_interchange_info doc local_root with
  | .ok db2 => db2
  | .error _ => db

/-- Modelled from the spec (section 4.4): one key's entry in the Minimal
export — the key's current three bounds. -/
def SlashingDatabase.export_entry (db : SlashingDatabase) (k : Nat) :
    MinimalInterchangeData :=
  { pubkey := k
    last_signed_block_slot := (db.records k).block_slot_bound
    last_signed_attestation_source_epoch := (db.records k).att_source_bound
    last_signed_attestation_target_epoch := (db.records k).att_target_bound }

/-- Modelled from the spec (section 4.4): `export_minimal_interchange_info`
emits, for every registered key, the key plus its current three bounds
(`none` where a category was never signed nor imported). -/
def SlashingDatabase.export_minimal_interchange_info (db : SlashingDatabase)
    (genesis_validators_root : Nat) : Interchange :=
  { metadata :=
      { interchange_format := .Minimal
        interchange_format_version := SUPPORTED_INTERCHANGE_FORMAT_VERSION
        genesis_validators_root := genesis_validators_root }
    data := db.registered.map db.export_entry }

/-- The externally observable bounds of one key: `none` when the key is not
registered (the store's operations refuse unregistered keys), otherwise the
three stored bounds. -/
def SlashingDatabase.get_bounds (db : SlashingDatabase) (k : Nat) :
    Option (Option Nat × Option Nat × Option Nat) :=
  if k ∈ db.registered then
    some ((db.records k).block_slot_bound,
      (db.records k).att_source_bound, (db.records k).att_target_bound)
  else none

/-- Order on optional bounds: an unset bound is below everything, present
bounds compare by value.  `optLe a b` says bound `b` is at least as
protective as bound `a`. -/
def optLe : Option Nat → Option Nat → Prop
  | none, _ => True
  | some _, none => False
  | some a, some b => a ≤ b

/-- The maximum target epoch appearing in an attestation history, `none` for
an empty history. -/
def histMaxTarget (h : List AttestationSigningRecord) : Option Nat :=
  h.foldl (fun acc p => some (optMaxN acc p.target_epoch)) none

/-- Well-formedness of the store's attestation histories: every stored
attestation record satisfies `source_epoch ≤ target_epoch`. -/
def att_wf (db : SlashingDatabase) : Prop :=
  ∀ k, ∀ p ∈ (db.records k).attestations, p.source_epoch ≤ p.target_epoch

/-- Sequencing helper: a block check-and-insert chained onto the outcome of
previous guarded operations (as the test harness does, unwrapping each). -/
def runBlock (st : Except CheckError SlashingDatabase) (k slot root : Nat) :
    Except CheckError SlashingDatabase :=
  st.bind fun db => db.check_and_insert_block_signing_root k slot root

/-- Sequencing helper: an attestation check-and-insert chained onto the
outcome of previous guarded operations. -/
def runAtt (st : Except CheckError SlashingDatabase)
    (k source target root : Nat) : Except CheckError SlashingDatabase :=
  st.bind fun db => db.check_and_insert_attestation_signing_root k source target root

/-- The three bounds of record `r` coincide with those of record `r2`. -/
def boundsEq (r r2 : ValidatorRecord) : Prop :=
  r.block_slot_bound = r2.block_slot_bound ∧
  r.att_source_bound = r2.att_source_bound ∧
  r.att_target_bound = r2.att_target_bound

/-- All three bounds of record `r` are unset. -/
def boundsNone (r : ValidatorRecord) : Prop :=
  r.block_slot_bound = none ∧ r.att_source_bound = none ∧
  r.att_target_bound = none

/-- A one-key store used to instantiate guard theorems on concrete data:
key 0 is registered and holds block record `(slot 5, root 7)`. -/
def sampleBlockDb : SlashingDatabase :=
  { registered := [0]
    records := fun _ => { ValidatorRecord.empty with block := some ⟨5, 7⟩ } }

/-- A one-key store with key 0 registered and no history at all, used to
instantiate guard theorems on concrete data. -/
def sampleAttDb : SlashingDatabase :=
  { registered := [0], records := fun _ => ValidatorRecord.empty }

end SlashingModel

namespace ValidatorDutyModel

/-- From `validator_client/src/validator_duty.rs`: the duties of one
validator for an epoch (`PublicKey`, `Slot`, `CommitteeIndex`, `u64` and
`usize` all modelled as `Nat`). -/
structure ValidatorDuty where
  validator_pubkey : Nat
  validator_index : Option Nat
  attestation_slot : Option Nat
  attestation_committee_index : Option Nat
  attestation_committee_position : Option Nat
  committee_count_at_slot : Option Nat
  committee_length : Option Nat
  block_proposal_slots : Option (List Nat)
deriving DecidableEq, Repr

/-- From `eth2` types: a beacon committee subscription request. -/
structure BeaconCommitteeSubscription where
  validator_index : Nat
  committee_index : Nat
  committees_at_slot : Nat
  slot : Nat
  is_aggregator : Bool
deriving DecidableEq, Repr

/-- `ValidatorDuty::no_duties`: the duty record used when the validator is
unknown or has no attester duty. -/
def ValidatorDuty.no_duties (validator_pubkey : Nat) : ValidatorDuty :=
  { validator_pubkey := validator_pubkey
    validator_index := none
    attestation_slot := none
    attestation_committee_index := none
    attestation_committee_position := none
    committee_count_at_slot := none
    committee_length := none
    block_proposal_slots := none }

/-- `ValidatorDuty::eq_ignoring_proposal_slots`: field-wise equality on the
six compared fields (`committee_length` and `block_proposal_slots` are not
compared). -/
def ValidatorDuty.eq_ignoring_proposal_slots (d1 d2 : ValidatorDuty) : Bool :=
  d1.validator_pubkey == d2.validator_pubkey
    && d1.validator_index == d2.validator_index
    && d1.attestation_slot == d2.attestation_slot
    && d1.attestation_committee_index == d2.attestation_committee_index
    && d1.attestation_committee_position == d2.attestation_committee_position
    && d1.committee_count_at_slot == d2.committee_count_at_slot

/-- `ValidatorDuty::subscription`: builds a `BeaconCommitteeSubscription`
when all four of `validator_index`, `attestation_committee_index`,
`committee_count_at_slot` and `attestation_slot` are present (Rust's `?`
operator), otherwise `None`. -/
def ValidatorDuty.subscription (d : ValidatorDuty) (is_aggregator : Bool) :
    Option BeaconCommitteeSubscription :=
  match d.validator_index, d.attestation_committee_index,
      d.committee_count_at_slot, d.attestation_slot with
  | some vi, some ci, some ca, some s =>
    some { validator_index := vi
           committee_index := ci
           committees_at_slot := ca
           slot := s
           is_aggregator := is_aggregator }
  | _, _, _, _ => none

end ValidatorDutyModel

namespace SlashingModel

lemma optLe_refl (a : Option Nat) : optLe a a := by
  cases a <;> simp [optLe]

lemma optLe_trans {a b c : Option Nat} (h1 : optLe a b) (h2 : optLe b c) :
    optLe a c := by
  cases a <;> cases b <;> cases c <;> simp_all [optLe]
  omega

lemma optLe_optMax_left (a b : Option Nat) : optLe a (optMax a b) := by
  cases a <;> cases b <;> simp [optLe, optMax]

lemma optMax_none_left (b : Option Nat) : optMax none b = b := rfl

lemma optMax_self (a : Option Nat) : optMax a a = a := by
  cases a <;> simp [optMax]

/-- **C3.** `import_interchange_info` fails with `GenesisMismatch` whenever
the document's `genesis_validators_root` differs from the local one, and in
that case the store is left entirely unchanged (all-or-nothing imports). -/
theorem import_genesis_mismatch_rejected
    (db : SlashingDatabase) (doc : Interchange) (g : Nat)
    (h : doc.metadata.genesis_validators_root ≠ g) :
    db.import_interchange_info doc g = .error .GenesisMismatch ∧
    db.import_apply doc g = db := by
  have h1 : db.import_interchange_info doc g = .error .GenesisMismatch := by
    simp [SlashingDatabase.import_interchange_info, h]
  exact ⟨h1, by simp [SlashingDatabase.import_apply, h1]⟩

/-- Witness for C3 at a concrete mismatching document. -/
theorem import_genesis_mismatch_rejected_witness :
    SlashingDatabase.empty.import_interchange_info
      ⟨⟨.Minimal, SUPPORTED_INTERCHANGE_FORMAT_VERSION, 1⟩, []⟩ 2 =
      .error .GenesisMismatch ∧
    SlashingDatabase.empty.import_apply
      ⟨⟨.Minimal, SUPPORTED_INTERCHANGE_FORMAT_VERSION, 1⟩, []⟩ 2 =
      SlashingDatabase.empty :=
  import_genesis_mismatch_rejected SlashingDatabase.empty
    ⟨⟨.Minimal, SUPPORTED_INTERCHANGE_FORMAT_VERSION, 1⟩, []⟩ 2 (by decide)

/-- **C6.** With an existing block record, `evaluate_block` (and hence the
guard `check_and_insert_block_signing_root`) allows the exact `(slot, root)`
replay of the stored record and denies `DoubleProposal` on the same slot
with a different root. -/
theorem block_replay_allowed_double_proposal_denied
    (h : BlockSigningRecord) (root : Nat) (db : SlashingDatabase) (k : Nat) :
    evaluate_block (some h) h.slot h.signing_root = .allow ∧
    (root ≠ h.signing_root →
      evaluate_block (some h) h.slot root = .deny .DoubleProposal) ∧
    (k ∈ db.registered → (db.records k).block = some h →
      db.check_and_insert_block_signing_root k h.slot h.signing_root = .ok db ∧
      (root ≠ h.signing_root →
        db.check_and_insert_block_signing_root k h.slot root =
          .error (.Slashing .DoubleProposal))) := by
  have heval : evaluate_block (some h) h.slot h.signing_root = .allow := by
    simp [evaluate_block]
  refine ⟨heval, fun hr => ?_, fun hk hb => ⟨?_, fun hr => ?_⟩⟩
  · simp [evaluate_block, hr]
  · simp only [SlashingDatabase.check_and_insert_block_signing_root, if_pos hk,
      hb, heval]
    simp
  · simp only [SlashingDatabase.check_and_insert_block_signing_root, if_pos hk,
      hb]
    simp [evaluate_block, hr]

/-- Witness for C6 on a concrete store holding record `(5, 7)` for key 0. -/
theorem block_replay_allowed_double_proposal_denied_witness :
    evaluate_block (some ⟨5, 7⟩) 5 7 = .allow ∧
    evaluate_block (some ⟨5, 7⟩) 5 8 = .deny .DoubleProposal ∧
    sampleBlockDb.check_and_insert_block_signing_root 0 5 7 = .ok sampleBlockDb ∧
    sampleBlockDb.check_and_insert_block_signing_root 0 5 8 =
      .error (.Slashing .DoubleProposal) := by
  have H := block_replay_allowed_double_proposal_denied ⟨5, 7⟩ 8 sampleBlockDb 0
  have H3 := H.2.2 (by decide) rfl
  exact ⟨H.1, H.2.1 (by decide), H3.1, H3.2 (by decide)⟩

/-- **C7 counterexample.** The claim says `evaluate_attestation` returns
`DENY(SurroundingVote)` whenever some prior vote strictly encloses the
candidate; but a malformed candidate with `source > target` is denied
`InvalidRange` regardless of history (spec 4.2), even when the prior vote
`(0, 5)` strictly encloses the candidate `(3, 2)`. -/
theorem surrounding_vote_unconditional_counterexample :
    ((0 : Nat) < 3 ∧ (2 : Nat) < 5) ∧
    evaluate_attestation [⟨0, 5, 0⟩] 3 2 0 ≠ .deny .SurroundingVote ∧
    evaluate_attestation [⟨0, 5, 0⟩] 3 2 0 = .deny .InvalidRange := by
  refine ⟨by omega, ?_, ?_⟩ <;> decide

/-- **C7 (amended).** For a candidate with `source ≤ target` such that no
stored vote shares its target epoch with a different root, if some stored
vote strictly encloses the candidate or is strictly enclosed by it, then
`evaluate_attestation` returns `DENY(SurroundingVote)`; in particular, with
the accepted vote `(source 1, target 4)` on record, the candidate
`(source 2, target 3)` is denied `SurroundingVote`, and so is the candidate
`(source 0, target 5)`. -/
theorem surrounding_vote_denied
    (history : List AttestationSigningRecord) (src tgt root r r2 : Nat) :
    (src ≤ tgt →
      (∀ p ∈ history, ¬(p.target_epoch = tgt ∧ p.signing_root ≠ root)) →
      (∃ p ∈ history, (p.source_epoch < src ∧ tgt < p.target_epoch) ∨
        (src < p.source_epoch ∧ p.target_epoch < tgt)) →
      evaluate_attestation history src tgt root = .deny .SurroundingVote) ∧
    evaluate_attestation [⟨1, 4, r⟩] 2 3 r2 = .deny .SurroundingVote ∧
    evaluate_attestation [⟨1, 4, r⟩] 0 5 r2 = .deny .SurroundingVote := by
  refine ⟨fun hst hnodouble hsurround => ?_, by simp [evaluate_attestation],
    by simp [evaluate_attestation]⟩
  have h1 : ¬ tgt < src := by omega
  have h2 : ¬ history.any fun p =>
      p.target_epoch == tgt && p.signing_root != root := by
    simp only [List.any_eq_true, Bool.and_eq_true, beq_iff_eq, bne_iff_ne,
      not_exists, not_and]
    intro p hp
    intro htgt hroot
    exact hnodouble p hp ⟨htgt, hroot⟩
  have h3 : history.any fun p =>
      (decide (p.source_epoch < src) && decide (tgt < p.target_epoch)) ||
      (decide (src < p.source_epoch) && decide (p.target_epoch < tgt)) := by
    simp only [List.any_eq_true, Bool.or_eq_true, Bool.and_eq_true,
      decide_eq_true_eq]
    exact hsurround
  simp [evaluate_attestation, h1, h2, h3]

/-- Witness for the amended C7 on history `[(1, 5, 9)]` and candidate
`(2, 3, 0)`. -/
theorem surrounding_vote_denied_witness :
    evaluate_attestation [⟨1, 5, 9⟩] 2 3 0 = .deny .SurroundingVote ∧
    evaluate_attestation [⟨1, 4, 9⟩] 2 3 0 = .deny .SurroundingVote ∧
    evaluate_attestation [⟨1, 4, 9⟩] 0 5 0 = .deny .SurroundingVote := by
  have H := surrounding_vote_denied [⟨1, 5, 9⟩] 2 3 0 9 0
  refine ⟨H.1 (by omega) ?_ ?_, H.2.1, H.2.2⟩
  · intro p hp
    simp only [List.mem_singleton] at hp
    subst hp
    simp
  · exact ⟨⟨1, 5, 9⟩, by simp, Or.inl (by exact ⟨by decide, by decide⟩)⟩

end SlashingModel

namespace ValidatorDutyModel

/-- **C9.** `eq_ignoring_proposal_slots` is true exactly when the two duties
agree on the six compared fields; in particular it ignores
`committee_length` (in addition to `block_proposal_slots`), so duties
differing only in `committee_length` compare as equal. -/
theorem eq_ignoring_proposal_slots_spec (d1 d2 : ValidatorDuty)
    (l : Option Nat) (slots : Option (List Nat)) :
    (d1.eq_ignoring_proposal_slots d2 = true ↔
      (d1.validator_pubkey = d2.validator_pubkey ∧
        d1.validator_index = d2.validator_index ∧
        d1.attestation_slot = d2.attestation_slot ∧
        d1.attestation_committee_index = d2.attestation_committee_index ∧
        d1.attestation_committee_position = d2.attestation_committee_position ∧
        d1.committee_count_at_slot = d2.committee_count_at_slot)) ∧
    d1.eq_ignoring_proposal_slots
      { d1 with committee_length := l, block_proposal_slots := slots } = true := by
  constructor
  · simp [ValidatorDuty.eq_ignoring_proposal_slots, and_assoc]
  · simp [ValidatorDuty.eq_ignoring_proposal_slots]

/-- Witness for C9: two concrete duties differing only in
`committee_length` compare as equal. -/
theorem eq_ignoring_proposal_slots_spec_witness :
    (ValidatorDuty.no_duties 3).eq_ignoring_proposal_slots
      { ValidatorDuty.no_duties 3 with
        committee_length := some 9, block_proposal_slots := some [1] } = true :=
  (eq_ignoring_proposal_slots_spec (ValidatorDuty.no_duties 3)
    (ValidatorDuty.no_duties 3) (some 9) (some [1])).2

/-- **C10.** `subscription` returns `some` exactly when all four of
`validator_index`, `attestation_committee_index`, `committee_count_at_slot`
and `attestation_slot` are `some`; a duty built by `no_duties` always gives
`none`; and the `is_aggregator` argument never affects whether the result
is `some`. -/
theorem subscription_spec (d : ValidatorDuty) (b b2 : Bool) (pk : Nat) :
    ((d.subscription b).isSome = true ↔
      (d.validator_index.isSome = true ∧
        d.attestation_committee_index.isSome = true ∧
        d.committee_count_at_slot.isSome = true ∧
        d.attestation_slot.isSome = true)) ∧
    (ValidatorDuty.no_duties pk).subscription b = none ∧
    (d.subscription b).isSome = (d.subscription b2).isSome := by
  obtain ⟨pk1, vi, slot, ci, cp, cc, cl, bs⟩ := d
  cases vi <;> cases ci <;> cases cc <;> cases slot <;>
    simp [ValidatorDuty.subscription, ValidatorDuty.no_duties]

/-- Witness for C10 on a concrete duty with all four fields present. -/
theorem subscription_spec_witness :
    ((ValidatorDuty.mk 3 (some 1) (some 2) (some 4) (some 5) (some 6)
      (some 7) none).subscription true).isSome = true :=
  (subscription_spec
    (ValidatorDuty.mk 3 (some 1) (some 2) (some 4) (some 5) (some 6)
      (some 7) none) true false 0).1.mpr (by simp)

end ValidatorDutyModel

namespace SlashingModel

lemma register_one_records (db : SlashingDatabase) (x k : Nat) :
    (db.register_one x).records k = db.records k := by
  unfold SlashingDatabase.register_one
  split <;> rfl

lemma register_one_mem (db : SlashingDatabase) (x k : Nat) :
    k ∈ (db.register_one x).registered ↔ k ∈ db.registered ∨ k = x := by
  unfold SlashingDatabase.register_one
  split
  · rename_i hx
    constructor
    · exact Or.inl
    · rintro (hk | rfl)
      · exact hk
      · exact hx
  · simp [List.mem_append]

lemma update_records_eq (db : SlashingDatabase) (x : Nat)
    (f : ValidatorRecord → ValidatorRecord) :
    (db.update x f).records x = f (db.records x) := by
  simp [SlashingDatabase.update]

lemma update_records_ne (db : SlashingDatabase) (x k : Nat)
    (f : ValidatorRecord → ValidatorRecord) (h : k ≠ x) :
    (db.update x f).records k = db.records k := by
  simp [SlashingDatabase.update, h]

lemma update_registered (db : SlashingDatabase) (x : Nat)
    (f : ValidatorRecord → ValidatorRecord) :
    (db.update x f).registered = db.registered := rfl

lemma import_entry_records_eq (db : SlashingDatabase)
    (e : MinimalInterchangeData) :
    (db.import_entry e).records e.pubkey =
      { db.records e.pubkey with
          block_slot_bound :=
            optMax (db.records e.pubkey).block_slot_bound e.last_signed_block_slot
          att_source_bound :=
            optMax (db.records e.pubkey).att_source_bound
              e.last_signed_attestation_source_epoch
          att_target_bound :=
            optMax (db.records e.pubkey).att_target_bound
              e.last_signed_attestation_target_epoch } := by
  unfold SlashingDatabase.import_entry
  rw [update_records_eq, register_one_records]

lemma import_entry_records_ne (db : SlashingDatabase)
    (e : MinimalInterchangeData) (k : Nat) (h : k ≠ e.pubkey) :
    (db.import_entry e).records k = db.records k := by
  unfold SlashingDatabase.import_entry
  rw [update_records_ne _ _ _ _ h, register_one_records]

lemma import_entry_mem (db : SlashingDatabase) (e : MinimalInterchangeData)
    (k : Nat) :
    k ∈ (db.import_entry e).registered ↔
      k ∈ db.registered ∨ k = e.pubkey := by
  unfold SlashingDatabase.import_entry
  rw [update_registered, register_one_mem]

lemma import_fold_mem (es : List MinimalInterchangeData)
    (db : SlashingDatabase) (k : Nat) :
    k ∈ (es.foldl SlashingDatabase.import_entry db).registered ↔
      k ∈ db.registered ∨ k ∈ es.map (fun e => e.pubkey) := by
  induction es generalizing db with
  | nil => simp
  | cons e es ih =>
    simp only [List.foldl_cons, List.map_cons, List.mem_cons]
    rw [ih, import_entry_mem]
    tauto

lemma import_fold_records_frame (es : List MinimalInterchangeData)
    (db : SlashingDatabase) (k : Nat) (h : ∀ e ∈ es, e.pubkey ≠ k) :
    (es.foldl SlashingDatabase.import_entry db).records k = db.records k := by
  induction es generalizing db with
  | nil => rfl
  | cons e es ih =>
    rw [List.foldl_cons, ih _ fun e2 he2 => h e2 (List.mem_cons_of_mem _ he2),
      import_entry_records_ne _ _ _ (Ne.symm (h e (List.mem_cons_self _ _)))]

lemma import_entry_attestations (db : SlashingDatabase)
    (e : MinimalInterchangeData) (k : Nat) :
    ((db.import_entry e).records k).attestations =
      (db.records k).attestations := by
  by_cases h : k = e.pubkey
  · subst h
    rw [import_entry_records_eq]
  · rw [import_entry_records_ne _ _ _ h]

lemma import_entry_block (db : SlashingDatabase)
    (e : MinimalInterchangeData) (k : Nat) :
    ((db.import_entry e).records k).block = (db.records k).block := by
  by_cases h : k = e.pubkey
  · subst h
    rw [import_entry_records_eq]
  · rw [import_entry_records_ne _ _ _ h]

lemma import_fold_attestations (es : List MinimalInterchangeData)
    (db : SlashingDatabase) (k : Nat) :
    ((es.foldl SlashingDatabase.import_entry db).records k).attestations =
      (db.records k).attestations := by
  induction es generalizing db with
  | nil => rfl
  | cons e es ih => rw [List.foldl_cons, ih, import_entry_attestations]

lemma import_entry_bounds_le (db : SlashingDatabase)
    (e : MinimalInterchangeData) (k : Nat) :
    optLe (db.records k).block_slot_bound
        ((db.import_entry e).records k).block_slot_bound ∧
    optLe (db.records k).att_source_bound
        ((db.import_entry e).records k).att_source_bound ∧
    optLe (db.records k).att_target_bound
        ((db.import_entry e).records k).att_target_bound := by
  by_cases h : k = e.pubkey
  · subst h
    rw [import_entry_records_eq]
    exact ⟨optLe_optMax_left _ _, optLe_optMax_left _ _, optLe_optMax_left _ _⟩
  · rw [import_entry_records_ne _ _ _ h]
    exact ⟨optLe_refl _, optLe_refl _, optLe_refl _⟩

lemma import_fold_bounds_le (es : List MinimalInterchangeData)
    (db : SlashingDatabase) (k : Nat) :
    optLe (db.records k).block_slot_bound
        ((es.foldl SlashingDatabase.import_entry db).records k).block_slot_bound ∧
    optLe (db.records k).att_source_bound
        ((es.foldl SlashingDatabase.import_entry db).records k).att_source_bound ∧
    optLe (db.records k).att_target_bound
        ((es.foldl SlashingDatabase.import_entry db).records k).att_target_bound := by
  induction es generalizing db with
  | nil => exact ⟨optLe_refl _, optLe_refl _, optLe_refl _⟩
  | cons e es ih =>
    obtain ⟨h1, h2, h3⟩ := import_entry_bounds_le db e k
    obtain ⟨g1, g2, g3⟩ := ih (db.import_entry e)
    exact ⟨optLe_trans h1 g1, optLe_trans h2 g2, optLe_trans h3 g3⟩

lemma import_ok_eq {db : SlashingDatabase} {doc : Interchange} {g : Nat}
    {db2 : SlashingDatabase}
    (h : db.import_interchange_info doc g = .ok db2) :
    db2 = doc.data.foldl SlashingDatabase.import_entry db := by
  unfold SlashingDatabase.import_interchange_info at h
  split at h
  · exact absurd h (by simp)
  · split at h
    · exact absurd h (by simp)
    · simpa using h.symm

end SlashingModel

namespace SlashingModel

/-- **C5.** Importing interchange data whose entries are all for keys other
than `P` leaves key `P`'s stored record — in particular its three bounds —
entirely unchanged. -/
theorem import_other_key_frame (db : SlashingDatabase) (doc : Interchange)
    (g P : Nat) (h : ∀ e ∈ doc.data, e.pubkey ≠ P) :
    (db.import_apply doc g).records P = db.records P ∧
    (db.import_apply doc g).get_bounds P = db.get_bounds P := by
  have hrec : (db.import_apply doc g).records P = db.records P := by
    unfold SlashingDatabase.import_apply
    cases himp : db.import_interchange_info doc g with
    | error e => rfl
    | ok db2 =>
      rw [import_ok_eq himp]
      exact import_fold_records_frame doc.data db P h
  have hmem : P ∈ (db.import_apply doc g).registered ↔ P ∈ db.registered := by
    unfold SlashingDatabase.import_apply
    cases himp : db.import_interchange_info doc g with
    | error e => exact Iff.rfl
    | ok db2 =>
      rw [import_ok_eq himp, import_fold_mem]
      simp only [List.mem_map]
      constructor
      · rintro (hp | ⟨e, he, rfl⟩)
        · exact hp
        · exact absurd rfl (h e he)
      · exact Or.inl
  refine ⟨hrec, ?_⟩
  unfold SlashingDatabase.get_bounds
  by_cases hP : P ∈ db.registered
  · rw [if_pos hP, if_pos (hmem.mpr hP), hrec]
  · rw [if_neg hP, if_neg fun hc => hP (hmem.mp hc)]

/-- Witness for C5: importing data for key 1 leaves key 0's record and
bounds in `sampleBlockDb` unchanged. -/
theorem import_other_key_frame_witness :
    (sampleBlockDb.import_apply
        ⟨⟨.Minimal, SUPPORTED_INTERCHANGE_FORMAT_VERSION, 66⟩,
          [⟨1, some 9, some 2, some 3⟩]⟩ 66).records 0 =
      sampleBlockDb.records 0 ∧
    (sampleBlockDb.import_apply
        ⟨⟨.Minimal, SUPPORTED_INTERCHANGE_FORMAT_VERSION, 66⟩,
          [⟨1, some 9, some 2, some 3⟩]⟩ 66).get_bounds 0 =
      sampleBlockDb.get_bounds 0 :=
  import_other_key_frame sampleBlockDb
    ⟨⟨.Minimal, SUPPORTED_INTERCHANGE_FORMAT_VERSION, 66⟩,
      [⟨1, some 9, some 2, some 3⟩]⟩ 66 0 (by decide)

lemma evaluate_attestation_allow_le {hist : List AttestationSigningRecord}
    {s t r : Nat} (h : evaluate_attestation hist s t r = .allow) : s ≤ t := by
  unfold evaluate_attestation at h
  by_cases hc : t < s
  · rw [if_pos hc] at h
    exact absurd h (by simp)
  · omega

lemma update_attestations_shape (db : SlashingDatabase) (x k : Nat)
    (f : ValidatorRecord → ValidatorRecord)
    (hf : ∀ r, (f r).attestations = r.attestations) :
    ((db.update x f).records k).attestations = (db.records k).attestations := by
  by_cases h : k = x
  · subst h
    rw [update_records_eq, hf]
  · rw [update_records_ne _ _ _ _ h]

lemma register_validators_records (db : SlashingDatabase) (ks : List Nat)
    (k : Nat) :
    (db.register_validators ks).records k = db.records k := by
  simp only [SlashingDatabase.register_validators]
  induction ks generalizing db with
  | nil => rfl
  | cons x ks ih => rw [List.foldl_cons, ih, register_one_records]

lemma check_block_ok_cases {db : SlashingDatabase} {k slot root : Nat}
    {db2 : SlashingDatabase}
    (h : db.check_and_insert_block_signing_root k slot root = .ok db2) :
    db2 = db ∨ db2 = db.update k fun r2 =>
      { r2 with block := some ⟨slot, root⟩
                block_slot_bound := some (optMaxN r2.block_slot_bound slot) } := by
  unfold SlashingDatabase.check_and_insert_block_signing_root at h
  split at h
  · split at h
    · exact absurd h (by simp)
    · split at h
      · left
        exact (Except.ok.inj h).symm
      · split at h
        · split at h
          · exact absurd h (by simp)
          · right
            exact (Except.ok.inj h).symm
        · right
          exact (Except.ok.inj h).symm
  · exact absurd h (by simp)

lemma check_att_ok_cases {db : SlashingDatabase} {k source target root : Nat}
    {db2 : SlashingDatabase}
    (h : db.check_and_insert_attestation_signing_root k source target root =
      .ok db2) :
    db2 = db ∨
      (evaluate_attestation (db.records k).attestations source target root =
          .allow ∧
        db2 = db.update k fun r2 =>
          { r2 with
              attestations := r2.attestations ++ [⟨source, target, root⟩]
              att_source_bound := some (optMaxN r2.att_source_bound source)
              att_target_bound := some (optMaxN r2.att_target_bound target) }) := by
  unfold SlashingDatabase.check_and_insert_attestation_signing_root at h
  split at h
  · split at h
    · exact absurd h (by simp)
    · rename_i heval
      split at h
      · left
        exact (Except.ok.inj h).symm
      · split at h
        · split at h
          · exact absurd h (by simp)
          · exact Or.inr ⟨heval, (Except.ok.inj h).symm⟩
        · exact Or.inr ⟨heval, (Except.ok.inj h).symm⟩
  · exact absurd h (by simp)

lemma optLe_self_optMaxN (a : Option Nat) (n : Nat) :
    optLe a (some (optMaxN a n)) := by
  cases a <;> simp [optLe, optMaxN, Nat.le_max_left]

lemma histMaxTarget_append (l : List AttestationSigningRecord)
    (x : AttestationSigningRecord) :
    histMaxTarget (l ++ [x]) = some (optMaxN (histMaxTarget l) x.target_epoch) := by
  unfold histMaxTarget
  rw [List.foldl_append]
  rfl

end SlashingModel

namespace SlashingModel

/-- **C8.** Candidates with `source > target` are always denied
`InvalidRange` regardless of history; every stored attestation record
satisfies `source_epoch ≤ target_epoch`, an invariant preserved by every
operation (registration, block insert, import, attestation insert); and the
maximum target epoch ever signed by a key never decreases under any of
these operations (registration, block inserts and imports leave every
attestation history unchanged, and an accepted attestation insert only
appends). -/
theorem attestation_invariants (hist : List AttestationSigningRecord)
    (s t r : Nat) (db dbB dbI dbA : SlashingDatabase) (ks : List Nat)
    (kb k k2 slot root source target aroot g : Nat) (doc : Interchange) :
    (t < s → evaluate_attestation hist s t r = .deny .InvalidRange) ∧
    ((att_wf db → att_wf (db.register_validators ks)) ∧
      histMaxTarget ((db.register_validators ks).records k2).attestations =
        histMaxTarget (db.records k2).attestations) ∧
    (db.check_and_insert_block_signing_root kb slot root = .ok dbB →
      (att_wf db → att_wf dbB) ∧
      histMaxTarget (dbB.records k2).attestations =
        histMaxTarget (db.records k2).attestations) ∧
    (db.import_interchange_info doc g = .ok dbI →
      (att_wf db → att_wf dbI) ∧
      histMaxTarget (dbI.records k2).attestations =
        histMaxTarget (db.records k2).attestations) ∧
    (db.check_and_insert_attestation_signing_root k source target aroot =
        .ok dbA →
      (att_wf db → att_wf dbA) ∧
      optLe (histMaxTarget (db.records k2).attestations)
        (histMaxTarget (dbA.records k2).attestations)) := by
  refine ⟨fun h => ?_, ⟨fun hwf => ?_, ?_⟩, fun hok => ?_, fun hok => ?_,
    fun hok => ?_⟩
  · unfold evaluate_attestation
    rw [if_pos h]
  · intro k3 p hp
    rw [register_validators_records] at hp
    exact hwf k3 p hp
  · rw [register_validators_records]
  · rcases check_block_ok_cases hok with hB | hB
    · subst hB
      exact ⟨id, rfl⟩
    · subst hB
      have hsh : ∀ k3, ((db.update kb fun r2 =>
          { r2 with block := some ⟨slot, root⟩
                    block_slot_bound :=
                      some (optMaxN r2.block_slot_bound slot) }).records
            k3).attestations = (db.records k3).attestations :=
        fun k3 => update_attestations_shape db kb k3 _ fun _ => rfl
      refine ⟨fun hwf k3 p hp => hwf k3 p ?_, by rw [hsh]⟩
      rwa [hsh] at hp
  · rw [import_ok_eq hok]
    refine ⟨fun hwf k3 p hp => hwf k3 p ?_, by rw [import_fold_attestations]⟩
    rwa [import_fold_attestations] at hp
  · rcases check_att_ok_cases hok with hA | ⟨heval, hA⟩
    · subst hA
      exact ⟨id, optLe_refl _⟩
    · subst hA
      constructor
      · intro hwf k3 p hp
        by_cases hk3 : k3 = k
        · subst hk3
          rw [update_records_eq] at hp
          simp only [List.mem_append, List.mem_singleton] at hp
          rcases hp with hp | rfl
          · exact hwf k3 p hp
          · exact evaluate_attestation_allow_le heval
        · rw [update_records_ne _ _ _ _ hk3] at hp
          exact hwf k3 p hp
      · by_cases hk2 : k2 = k
        · subst hk2
          rw [update_records_eq]
          simp only
          rw [histMaxTarget_append]
          exact optLe_self_optMaxN _ _
        · rw [update_records_ne _ _ _ _ hk2]
          exact optLe_refl _

/-- Witness for C8: the malformed candidate `(source 1, target 0)` is denied
`InvalidRange`; registration preserves well-formedness of a concrete store;
and an accepted insert of `(source 1, target 2)` into an empty history does
not decrease the maximum signed target. -/
theorem attestation_invariants_witness :
    evaluate_attestation [] 1 0 0 = .deny .InvalidRange ∧
    att_wf (sampleAttDb.register_validators [1]) ∧
    optLe (histMaxTarget (sampleAttDb.records 0).attestations)
      (histMaxTarget ((sampleAttDb.update 0 fun r2 =>
        { r2 with
            attestations := r2.attestations ++ [⟨1, 2, 3⟩]
            att_source_bound := some (optMaxN r2.att_source_bound 1)
            att_target_bound := some (optMaxN r2.att_target_bound 2) }).records
          0).attestations) := by
  have hwf : att_wf sampleAttDb := by
    intro k p hp
    simp [sampleAttDb, ValidatorRecord.empty] at hp
  have H := attestation_invariants [] 1 0 0 sampleAttDb sampleAttDb sampleAttDb
    (sampleAttDb.update 0 fun r2 =>
      { r2 with
          attestations := r2.attestations ++ [⟨1, 2, 3⟩]
          att_source_bound := some (optMaxN r2.att_source_bound 1)
          att_target_bound := some (optMaxN r2.att_target_bound 2) })
    [1] 0 0 0 4 5 1 2 3 66
    ⟨⟨.Minimal, SUPPORTED_INTERCHANGE_FORMAT_VERSION, 66⟩, []⟩
  exact ⟨H.1 (by decide), (H.2.1).1 hwf, (H.2.2.2.2 rfl).2⟩

end SlashingModel

namespace SlashingModel

lemma export_entry_pubkey (db : SlashingDatabase) (x : Nat) :
    (db.export_entry x).pubkey = x := rfl

lemma roundtrip_step (D A : SlashingDatabase) (x k : Nat)
    (hA : (k ∈ A.registered ∧ boundsEq (A.records k) (D.records k)) ∨
      (k ∉ A.registered ∧ boundsNone (A.records k))) :
    (k ∈ (A.import_entry (D.export_entry x)).registered ∧
        boundsEq ((A.import_entry (D.export_entry x)).records k)
          (D.records k)) ∨
      (k ∉ (A.import_entry (D.export_entry x)).registered ∧
        boundsNone ((A.import_entry (D.export_entry x)).records k)) := by
  by_cases hkx : k = x
  · subst hkx
    left
    constructor
    · rw [import_entry_mem]
      exact Or.inr rfl
    · have hrec := import_entry_records_eq A (D.export_entry k)
      rw [export_entry_pubkey] at hrec
      rw [hrec]
      rcases hA with ⟨_, hb1, hb2, hb3⟩ | ⟨_, hb1, hb2, hb3⟩
      · exact ⟨by simp [SlashingDatabase.export_entry, hb1, optMax_self],
          by simp [SlashingDatabase.export_entry, hb2, optMax_self],
          by simp [SlashingDatabase.export_entry, hb3, optMax_self]⟩
      · exact ⟨by simp [SlashingDatabase.export_entry, hb1, optMax_none_left],
          by simp [SlashingDatabase.export_entry, hb2, optMax_none_left],
          by simp [SlashingDatabase.export_entry, hb3, optMax_none_left]⟩
  · have hrec : (A.import_entry (D.export_entry x)).records k = A.records k :=
      import_entry_records_ne A (D.export_entry x) k
        (by rw [export_entry_pubkey]; exact hkx)
    have hmem : k ∈ (A.import_entry (D.export_entry x)).registered ↔
        k ∈ A.registered := by
      rw [import_entry_mem, export_entry_pubkey]
      constructor
      · rintro (hk | rfl)
        · exact hk
        · exact absurd rfl hkx
      · exact Or.inl
    rcases hA with ⟨h1, h2⟩ | ⟨h1, h2⟩
    · exact Or.inl ⟨hmem.mpr h1, hrec ▸ h2⟩
    · exact Or.inr ⟨fun hc => h1 (hmem.mp hc), hrec ▸ h2⟩

lemma roundtrip_fold (D : SlashingDatabase) (k : Nat) (xs : List Nat)
    (A : SlashingDatabase)
    (hA : (k ∈ A.registered ∧ boundsEq (A.records k) (D.records k)) ∨
      (k ∉ A.registered ∧ boundsNone (A.records k))) :
    (k ∈ ((xs.map D.export_entry).foldl SlashingDatabase.import_entry
          A).registered ∧
        boundsEq (((xs.map D.export_entry).foldl SlashingDatabase.import_entry
          A).records k) (D.records k)) ∨
      (k ∉ ((xs.map D.export_entry).foldl SlashingDatabase.import_entry
          A).registered ∧
        boundsNone (((xs.map D.export_entry).foldl
          SlashingDatabase.import_entry A).records k)) := by
  induction xs generalizing A with
  | nil => exact hA
  | cons x xs ih =>
    simp only [List.map_cons, List.foldl_cons]
    exact ih _ (roundtrip_step D A x k hA)

/-- **C4.** Round-trip: importing `export_minimal_interchange_info g` of any
database `D` into an empty database with the same genesis root `g` succeeds,
and the resulting database has, for every key, bounds identical to those of
`D`. -/
theorem export_import_roundtrip (D : SlashingDatabase) (g k : Nat) :
    ∃ db2,
      SlashingDatabase.empty.import_interchange_info
          (D.export_minimal_interchange_info g) g = .ok db2 ∧
        db2.get_bounds k = D.get_bounds k := by
  refine ⟨(D.registered.map D.export_entry).foldl SlashingDatabase.import_entry
    SlashingDatabase.empty, ?_, ?_⟩
  · unfold SlashingDatabase.import_interchange_info
      SlashingDatabase.export_minimal_interchange_info
    simp
  · have hinv := roundtrip_fold D k D.registered SlashingDatabase.empty
      (Or.inr ⟨by simp [SlashingDatabase.empty], rfl, rfl, rfl⟩)
    have hmem : k ∈ ((D.registered.map D.export_entry).foldl
        SlashingDatabase.import_entry SlashingDatabase.empty).registered ↔
        k ∈ D.registered := by
      rw [import_fold_mem]
      simp [SlashingDatabase.empty, List.map_map, Function.comp,
        export_entry_pubkey]
    unfold SlashingDatabase.get_bounds
    by_cases hk : k ∈ D.registered
    · rw [if_pos hk, if_pos (hmem.mpr hk)]
      rcases hinv with ⟨_, hb1, hb2, hb3⟩ | ⟨hn, _⟩
      · rw [hb1, hb2, hb3]
      · exact absurd (hmem.mpr hk) hn
    · rw [if_neg hk, if_neg fun hc => hk (hmem.mp hc)]

end SlashingModel

namespace SlashingModel

/-- **C1.** For a store holding, for key `P`, a block record at slot 126
(root 0) and accepted attestations `(0,1)`, `(1,2)`, `(2,3)` (so accepted
attestations up to source 2, target 3), importing a Minimal interchange
document with `last_signed_block_slot = 127`,
`last_signed_attestation_source_epoch = 3`,
`last_signed_attestation_target_epoch = 4` for `P` results in an effective
lower bound for `P` of `(slot 127, source 3, target 4)`, as observed by
`export_minimal_interchange_info` after the import. -/
theorem import_increases_lower_bound (P g : Nat) :
    (runAtt (runAtt (runAtt (runBlock
        (.ok (SlashingDatabase.empty.register_validators [P])) P 126 0)
        P 0 1 0) P 1 2 0) P 2 3 1).map
      (fun db =>
        ((db.import_apply
            ⟨⟨.Minimal, SUPPORTED_INTERCHANGE_FORMAT_VERSION, g⟩,
              [⟨P, some 127, some 3, some 4⟩]⟩
            g).export_minimal_interchange_info g).data)
    = .ok [⟨P, some 127, some 3, some 4⟩] := by
  simp [runAtt, runBlock,
    SlashingDatabase.check_and_insert_attestation_signing_root,
    SlashingDatabase.check_and_insert_block_signing_root,
    SlashingDatabase.register_validators, SlashingDatabase.register_one,
    SlashingDatabase.update, SlashingDatabase.import_apply,
    SlashingDatabase.import_interchange_info, SlashingDatabase.import_entry,
    SlashingDatabase.export_minimal_interchange_info,
    SlashingDatabase.export_entry, SlashingDatabase.empty, evaluate_block,
    evaluate_attestation, optMax, optMaxN, ValidatorRecord.empty,
    SUPPORTED_INTERCHANGE_FORMAT_VERSION, Except.map, Except.bind]

end SlashingModel

namespace SlashingModel

lemma import_fold_block (es : List MinimalInterchangeData)
    (db : SlashingDatabase) (k : Nat) :
    ((es.foldl SlashingDatabase.import_entry db).records k).block =
      (db.records k).block := by
  induction es generalizing db with
  | nil => rfl
  | cons e es ih => rw [List.foldl_cons, ih, import_entry_block]

lemma optLe_some_left {b : Nat} {a2 : Option Nat} (h : optLe (some b) a2) :
    ∃ b2, a2 = some b2 ∧ b ≤ b2 := by
  cases a2 with
  | none => exact absurd h (by simp [optLe])
  | some b2 => exact ⟨b2, rfl, h⟩

lemma check_block_error_cases {db : SlashingDatabase} {k slot root : Nat}
    {e : SlashingError}
    (h : db.check_and_insert_block_signing_root k slot root =
      .error (.Slashing e)) :
    k ∈ db.registered ∧
      (evaluate_block (db.records k).block slot root = .deny e ∨
        (evaluate_block (db.records k).block slot root = .allow ∧
          (db.records k).block ≠ some ⟨slot, root⟩ ∧
          ∃ b, (db.records k).block_slot_bound = some b ∧ slot ≤ b ∧
            e = .DecreasingSlot)) := by
  unfold SlashingDatabase.check_and_insert_block_signing_root at h
  split at h
  · rename_i hreg
    refine ⟨hreg, ?_⟩
    split at h
    · rename_i e2 heval
      left
      rw [heval]
      simpa using h
    · rename_i heval
      split at h
      · exact absurd h (by simp)
      · rename_i hrep
        split at h
        · rename_i b hb
          split at h
          · rename_i hle
            right
            exact ⟨heval, hrep, b, hb, hle, by simpa using h.symm⟩
          · exact absurd h (by simp)
        · exact absurd h (by simp)
  · exact absurd h (by simp)

lemma check_att_error_cases {db : SlashingDatabase}
    {k source target root : Nat} {e : SlashingError}
    (h : db.check_and_insert_attestation_signing_root k source target root =
      .error (.Slashing e)) :
    k ∈ db.registered ∧
      (evaluate_attestation (db.records k).attestations source target root =
          .deny e ∨
        (evaluate_attestation (db.records k).attestations source target root =
            .allow ∧
          ¬((db.records k).attestations.contains
            ⟨source, target, root⟩ = true) ∧
          ∃ b, (db.records k).att_target_bound = some b ∧ target ≤ b ∧
            e = .DecreasingTarget)) := by
  unfold SlashingDatabase.check_and_insert_attestation_signing_root at h
  split at h
  · rename_i hreg
    refine ⟨hreg, ?_⟩
    split at h
    · rename_i e2 heval
      left
      rw [heval]
      simpa using h
    · rename_i heval
      split at h
      · exact absurd h (by simp)
      · rename_i hrep
        split at h
        · rename_i b hb
          split at h
          · rename_i hle
            right
            exact ⟨heval, hrep, b, hb, hle, by simpa using h.symm⟩
          · exact absurd h (by simp)
        · exact absurd h (by simp)
  · exact absurd h (by simp)

lemma check_block_eval_deny {db : SlashingDatabase} {k slot root : Nat}
    {e : SlashingError} (hreg : k ∈ db.registered)
    (heval : evaluate_block (db.records k).block slot root = .deny e) :
    db.check_and_insert_block_signing_root k slot root =
      .error (.Slashing e) := by
  unfold SlashingDatabase.check_and_insert_block_signing_root
  rw [if_pos hreg, heval]

lemma check_block_bound_deny {db : SlashingDatabase} {k slot root b : Nat}
    (hreg : k ∈ db.registered)
    (heval : evaluate_block (db.records k).block slot root = .allow)
    (hrep : (db.records k).block ≠ some ⟨slot, root⟩)
    (hb : (db.records k).block_slot_bound = some b) (hle : slot ≤ b) :
    db.check_and_insert_block_signing_root k slot root =
      .error (.Slashing .DecreasingSlot) := by
  unfold SlashingDatabase.check_and_insert_block_signing_root
  rw [if_pos hreg, heval]
  simp only
  rw [if_neg hrep, hb]
  simp only
  rw [if_pos hle]

lemma check_att_eval_deny {db : SlashingDatabase} {k source target root : Nat}
    {e : SlashingError} (hreg : k ∈ db.registered)
    (heval : evaluate_attestation (db.records k).attestations source target
      root = .deny e) :
    db.check_and_insert_attestation_signing_root k source target root =
      .error (.Slashing e) := by
  unfold SlashingDatabase.check_and_insert_attestation_signing_root
  rw [if_pos hreg, heval]

lemma check_att_bound_deny {db : SlashingDatabase}
    {k source target root b : Nat} (hreg : k ∈ db.registered)
    (heval : evaluate_attestation (db.records k).attestations source target
      root = .allow)
    (hrep : ¬((db.records k).attestations.contains
      ⟨source, target, root⟩ = true))
    (hb : (db.records k).att_target_bound = some b) (hle : target ≤ b) :
    db.check_and_insert_attestation_signing_root k source target root =
      .error (.Slashing .DecreasingTarget) := by
  unfold SlashingDatabase.check_and_insert_attestation_signing_root
  rw [if_pos hreg, heval]
  simp only
  rw [if_neg hrep, hb]
  simp only
  rw [if_pos hle]

lemma check_block_denied_persists {db : SlashingDatabase} {doc : Interchange}
    {g : Nat} {db2 : SlashingDatabase} {k slot root : Nat} {e : SlashingError}
    (himp : db.import_interchange_info doc g = .ok db2)
    (hden : db.check_and_insert_block_signing_root k slot root =
      .error (.Slashing e)) :
    db2.check_and_insert_block_signing_root k slot root =
      .error (.Slashing e) := by
  have hdb2 := import_ok_eq himp
  subst hdb2
  obtain ⟨hreg, hcase⟩ := check_block_error_cases hden
  have hreg2 : k ∈ (doc.data.foldl SlashingDatabase.import_entry
      db).registered := (import_fold_mem _ _ _).mpr (Or.inl hreg)
  have hblock := import_fold_block doc.data db k
  rcases hcase with heval | ⟨heval, hrep, b, hb, hle, rfl⟩
  · exact check_block_eval_deny hreg2 (by rw [hblock]; exact heval)
  · have hmono := (import_fold_bounds_le doc.data db k).1
    rw [hb] at hmono
    obtain ⟨b2, hb2, hle2⟩ := optLe_some_left hmono
    exact check_block_bound_deny hreg2 (by rw [hblock]; exact heval)
      (by rw [hblock]; exact hrep) hb2 (le_trans hle hle2)

lemma check_att_denied_persists {db : SlashingDatabase} {doc : Interchange}
    {g : Nat} {db2 : SlashingDatabase} {k source target root : Nat}
    {e : SlashingError}
    (himp : db.import_interchange_info doc g = .ok db2)
    (hden : db.check_and_insert_attestation_signing_root k source target root =
      .error (.Slashing e)) :
    db2.check_and_insert_attestation_signing_root k source target root =
      .error (.Slashing e) := by
  have hdb2 := import_ok_eq himp
  subst hdb2
  obtain ⟨hreg, hcase⟩ := check_att_error_cases hden
  have hreg2 : k ∈ (doc.data.foldl SlashingDatabase.import_entry
      db).registered := (import_fold_mem _ _ _).mpr (Or.inl hreg)
  have hatt := import_fold_attestations doc.data db k
  rcases hcase with heval | ⟨heval, hrep, b, hb, hle, rfl⟩
  · exact check_att_eval_deny hreg2 (by rw [hatt]; exact heval)
  · have hmono := (import_fold_bounds_le doc.data db k).2.2
    rw [hb] at hmono
    obtain ⟨b2, hb2, hle2⟩ := optLe_some_left hmono
    exact check_att_bound_deny hreg2 (by rw [hatt]; exact heval)
      (by rw [hatt]; exact hrep) hb2 (le_trans hle hle2)

end SlashingModel

namespace SlashingModel

/-- **C2.** The merge computes each new stored bound as the join
(`max`, with absent treated as unset) of the existing and the imported
bound; consequently a successful import never lowers any stored bound for
any key (the merge is a monotone join), and a signing action that was
denied by a slashing rule before the import is still denied, with the same
error, after it: importing old or redundant data cannot re-enable a
previously-denied signing action. -/
theorem import_monotone_join (db : SlashingDatabase)
    (e : MinimalInterchangeData) (doc : Interchange) (g : Nat)
    (db2 : SlashingDatabase) (k kb ka slot root source target aroot : Nat)
    (eB eA : SlashingError) :
    ((db.import_entry e).records e.pubkey).block_slot_bound =
        optMax (db.records e.pubkey).block_slot_bound
          e.last_signed_block_slot ∧
    ((db.import_entry e).records e.pubkey).att_source_bound =
        optMax (db.records e.pubkey).att_source_bound
          e.last_signed_attestation_source_epoch ∧
    ((db.import_entry e).records e.pubkey).att_target_bound =
        optMax (db.records e.pubkey).att_target_bound
          e.last_signed_attestation_target_epoch ∧
    (db.import_interchange_info doc g = .ok db2 →
      (optLe (db.records k).block_slot_bound (db2.records k).block_slot_bound ∧
        optLe (db.records k).att_source_bound (db2.records k).att_source_bound ∧
        optLe (db.records k).att_target_bound
          (db2.records k).att_target_bound) ∧
      (db.check_and_insert_block_signing_root kb slot root =
          .error (.Slashing eB) →
        db2.check_and_insert_block_signing_root kb slot root =
          .error (.Slashing eB)) ∧
      (db.check_and_insert_attestation_signing_root ka source target aroot =
          .error (.Slashing eA) →
        db2.check_and_insert_attestation_signing_root ka source target aroot =
          .error (.Slashing eA))) := by
  refine ⟨?_, ?_, ?_, fun h => ⟨?_, fun hB => ?_, fun hA => ?_⟩⟩
  · rw [import_entry_records_eq]
  · rw [import_entry_records_eq]
  · rw [import_entry_records_eq]
  · rw [import_ok_eq h]
    exact import_fold_bounds_le doc.data db k
  · exact check_block_denied_persists h hB
  · exact check_att_denied_persists h hA

/-- Witness for C2 on `sampleBlockDb` (key 0, block record `(5, 7)`):
merging a block-slot bound of 9 equals the join and does not lower the
bound, the double proposal `(5, 8)` is still denied after the import, and
the malformed attestation `(3, 2)` is still denied after the import. -/
theorem import_monotone_join_witness :
    ((sampleBlockDb.import_entry ⟨0, some 9, none, none⟩).records
        0).block_slot_bound =
      optMax (sampleBlockDb.records 0).block_slot_bound (some 9) ∧
    optLe (sampleBlockDb.records 0).block_slot_bound
      (((sampleBlockDb.import_entry ⟨0, some 9, none, none⟩).records
        0).block_slot_bound) ∧
    (sampleBlockDb.import_entry
        ⟨0, some 9, none, none⟩).check_and_insert_block_signing_root 0 5 8 =
      .error (.Slashing .DoubleProposal) ∧
    (sampleBlockDb.import_entry
        ⟨0, some 9, none,
          none⟩).check_and_insert_attestation_signing_root 0 3 2 0 =
      .error (.Slashing .InvalidRange) := by
  have H := import_monotone_join sampleBlockDb ⟨0, some 9, none, none⟩
    ⟨⟨.Minimal, SUPPORTED_INTERCHANGE_FORMAT_VERSION, 66⟩,
      [⟨0, some 9, none, none⟩]⟩ 66
    (sampleBlockDb.import_entry ⟨0, some 9, none, none⟩) 0 0 0 5 8 3 2 0
    .DoubleProposal .InvalidRange
  have H4 := H.2.2.2 rfl
  exact ⟨H.1, H4.1.1, H4.2.1 rfl, H4.2.2 rfl⟩

end SlashingModel
